import Mathlib

/-!
Verification development for the Base AAVE metrics pipeline
(src/base-metrics-indexer.js, src/db-storage.js).

The JavaScript sources are shallowly embedded here:

* JS numbers on the data path are modelled as rationals (`ℚ`); the cap
  fields, whose code explicitly compares against the JS value `Infinity`
  (`token.supplyCap === Infinity ? null : ...`), are modelled by the sum
  type `JsNum` with an explicit infinity constructor.
* The library output of `formatReservesAndIncentives` (one humanized
  reserve record per asset) is the transform's raw input and is modelled
  by `RawReserve`; its numeric string fields are modelled by their parsed
  rational values (the `parseFloat` calls of the source).
* The PostgreSQL storage of db-storage.js is modelled by `DbState`
  (the aggregate table plus one table per token, as an association list),
  with upserts mirroring the `INSERT ... ON CONFLICT (block_number) DO
  UPDATE SET ...` statements column by column, and the `BEGIN` /
  `COMMIT` / `ROLLBACK` transaction of `storeMetrics` modelled by running
  every statement on a working copy that is published only on commit.
  A fault oracle (`fault : ℕ → Bool`, one index per SQL statement)
  models transient write failures.
* The polling loop of `startContinuousIndexing` is modelled by a step
  function `pollTick` on the cursor-and-database state, driven by a list
  of tick observations.
-/

/-- A JS number as it appears in the cap fields: either a finite value or
the JS `Infinity` (the result of `parseFloat` on the raw cap field; the
code treats `Infinity` as the "unlimited cap" marker). -/
inductive JsNum where
  | fin (q : ℚ)
  | inf
deriving DecidableEq

/-- One humanized reserve record as consumed by the `formattedReserves.map`
callbacks of `indexBaseAaveMetrics` (lines 148-206) and
`fetchBaseMetricsAtBlock` (lines 535-586): the fields the source reads,
with numeric strings modelled by their parsed values. -/
structure RawReserve where
  name : String
  symbol : String
  priceInMarketReferenceCurrency : ℚ
  totalLiquidity : ℚ
  totalDebt : ℚ
  totalLiquidityUSD : ℚ
  totalDebtUSD : ℚ
  reserves : ℚ
  reserveFactor : ℚ
  formattedReserveLiquidationThreshold : ℚ
  borrowingEnabled : Bool
  supplyCap : JsNum
  borrowCap : JsNum
  supplyAPY : ℚ
  variableBorrowAPY : ℚ
  stableBorrowAPY : ℚ
deriving DecidableEq

/-- The raw market data handed to the transform: the formatted reserve
records plus `reserves.baseCurrencyData.marketReferenceCurrencyPriceInUsd`. -/
structure RawMarketData where
  reservesData : List RawReserve
  marketReferenceCurrencyPriceInUsd : ℚ
deriving DecidableEq

/-- One entry of `tokenMetrics` as built by the per-reserve map callback. -/
structure TokenMetric where
  token : String
  symbol : String
  priceInUSD : ℚ
  liquidity : ℚ
  liquidityUSD : ℚ
  totalSupplied : ℚ
  totalSuppliedUSD : ℚ
  totalBorrowed : ℚ
  totalBorrowedUSD : ℚ
  utilizationRate : ℚ
  reserves : ℚ
  reserveFactor : ℚ
  liquidationThreshold : ℚ
  borrowEnabled : Bool
  supplyCap : JsNum
  borrowCap : JsNum
  supplyAPY : ℚ
  variableBorrowAPY : ℚ
  stableBorrowAPY : ℚ
deriving DecidableEq

/-- The cap of a `TokenMetric` as a plain number when finite. -/
def JsNum.toSql : JsNum → Option ℚ
  | JsNum.fin q => some q
  | JsNum.inf => none

/-- The per-reserve map callback of `indexBaseAaveMetrics` (lines 148-206):
price converted with the fixed divisor 10^16, liquidity, USD values,
guarded utilization rate, caps passed through `parseFloat`. -/
def mkTokenMetricLive (ref : ℚ) (reserve : RawReserve) : TokenMetric :=
  let priceInUSD := reserve.priceInMarketReferenceCurrency * ref / 10 ^ 16
  let totalSupplied := reserve.totalLiquidity
  let totalBorrowed := reserve.totalDebt
  let liquidity := totalSupplied - totalBorrowed
  { token := reserve.name
    symbol := reserve.symbol
    priceInUSD := priceInUSD
    liquidity := liquidity
    liquidityUSD := liquidity * priceInUSD
    totalSupplied := totalSupplied
    totalSuppliedUSD := totalSupplied * priceInUSD
    totalBorrowed := totalBorrowed
    totalBorrowedUSD := totalBorrowed * priceInUSD
    utilizationRate := if 0 < totalSupplied then totalBorrowed / totalSupplied * 100 else 0
    reserves := reserve.reserves
    reserveFactor := reserve.reserveFactor * 100
    liquidationThreshold := reserve.formattedReserveLiquidationThreshold
    borrowEnabled := reserve.borrowingEnabled
    supplyCap := reserve.supplyCap
    borrowCap := reserve.borrowCap
    supplyAPY := reserve.supplyAPY * 100
    variableBorrowAPY := reserve.variableBorrowAPY * 100
    stableBorrowAPY := reserve.stableBorrowAPY * 100 }

/-- The per-reserve map callback of `fetchBaseMetricsAtBlock`
(lines 535-586): identical to the live one except that the price is
converted with the fixed divisor 10^18. -/
def mkTokenMetricHist (ref : ℚ) (reserve : RawReserve) : TokenMetric :=
  let priceInUSD := reserve.priceInMarketReferenceCurrency * ref / 10 ^ 18
  let totalSupplied := reserve.totalLiquidity
  let totalBorrowed := reserve.totalDebt
  let liquidity := totalSupplied - totalBorrowed
  { token := reserve.name
    symbol := reserve.symbol
    priceInUSD := priceInUSD
    liquidity := liquidity
    liquidityUSD := liquidity * priceInUSD
    totalSupplied := totalSupplied
    totalSuppliedUSD := totalSupplied * priceInUSD
    totalBorrowed := totalBorrowed
    totalBorrowedUSD := totalBorrowed * priceInUSD
    utilizationRate := if 0 < totalSupplied then totalBorrowed / totalSupplied * 100 else 0
    reserves := reserve.reserves
    reserveFactor := reserve.reserveFactor * 100
    liquidationThreshold := reserve.formattedReserveLiquidationThreshold
    borrowEnabled := reserve.borrowingEnabled
    supplyCap := reserve.supplyCap
    borrowCap := reserve.borrowCap
    supplyAPY := reserve.supplyAPY * 100
    variableBorrowAPY := reserve.variableBorrowAPY * 100
    stableBorrowAPY := reserve.stableBorrowAPY * 100 }

/-- Source function `calculateTotalMarketSize` (lines 376-380): folds the raw
`totalLiquidityUSD` strings of the formatted reserves. -/
def calculateTotalMarketSize (formattedReserves : List RawReserve) : ℚ :=
  formattedReserves.foldl (fun total reserve => total + reserve.totalLiquidityUSD) 0

/-- Source function `calculateTotalBorrows` (lines 386-390). -/
def calculateTotalBorrows (formattedReserves : List RawReserve) : ℚ :=
  formattedReserves.foldl (fun total reserve => total + reserve.totalDebtUSD) 0

/-- Source function `calculateTotalAvailable` (lines 382-384). -/
def calculateTotalAvailable (formattedReserves : List RawReserve) : ℚ :=
  calculateTotalMarketSize formattedReserves - calculateTotalBorrows formattedReserves

/-- Source function `calculateAverageUtilization` (lines 392-402). -/
def calculateAverageUtilization (formattedReserves : List RawReserve) : ℚ :=
  let totalSupplied :=
    formattedReserves.foldl (fun total reserve => total + reserve.totalLiquidityUSD) 0
  let totalBorrowed :=
    formattedReserves.foldl (fun total reserve => total + reserve.totalDebtUSD) 0
  if 0 < totalSupplied then totalBorrowed / totalSupplied * 100 else 0

/-- Source function `calculatePercentChange` (lines 756-759 of the comparison part):
`if (start === 0) return end === 0 ? 0 : 100; return ((end - start) /
Math.abs(start)) * 100;` (`end` is a reserved word in Lean, so the second
argument is named `endValue`). -/
def calculatePercentChange (start endValue : ℚ) : ℚ :=
  if start = 0 then (if endValue = 0 then 0 else 100)
  else (endValue - start) / |start| * 100

/-- Two-digit zero padding, as `toISOString` renders date components. -/
def pad2 (n : ℕ) : String :=
  if n < 10 then "0" ++ toString n else toString n

/-- Four-digit zero padding for the year. -/
def pad4 (n : ℕ) : String :=
  if n < 10 then "000" ++ toString n
  else if n < 100 then "00" ++ toString n
  else if n < 1000 then "0" ++ toString n
  else toString n

/-- Gregorian (year, month, day) from days since 1970-01-01 (the civil
calendar conversion `Date` performs). -/
def civilFromDays (days : ℕ) : ℕ × ℕ × ℕ :=
  let z := days + 719468
  let era := z / 146097
  let doe := z % 146097
  let yoe := (doe + doe / 36524 - (doe / 1460 + doe / 146096)) / 365
  let y := yoe + era * 400
  let doy := doe - (365 * yoe + yoe / 4 - yoe / 100)
  let mp := (5 * doy + 2) / 153
  let d := doy - (153 * mp + 2) / 5 + 1
  let m := if mp < 10 then mp + 3 else mp - 9
  (if m ≤ 2 then y + 1 else y, m, d)

/-- The string `new Date(t * 1000).toISOString()` for a whole number of Unix seconds
(the source builds its `date` field this way from the Unix timestamp, so
the milliseconds part is always `000`). -/
def toISOStringFromSec (t : ℕ) : String :=
  let days := t / 86400
  let rem := t % 86400
  let ymd := civilFromDays days
  pad4 ymd.1 ++ "-" ++ pad2 ymd.2.1 ++ "-" ++ pad2 ymd.2.2 ++ "T" ++
    pad2 (rem / 3600) ++ ":" ++ pad2 (rem % 3600 / 60) ++ ":" ++ pad2 (rem % 60) ++ ".000Z"

/-- The `metricsData` object built by `indexBaseAaveMetrics`
(lines 247-259) and persisted by `storeMetrics`. -/
structure Snapshot where
  network : String
  chainId : ℕ
  blockNumber : ℕ
  timestamp : ℕ
  date : String
  totalMarketSize : ℚ
  totalAvailable : ℚ
  totalBorrows : ℚ
  averageUtilization : ℚ
  tokenCount : ℕ
  tokenMetrics : List TokenMetric
deriving DecidableEq

/-- The read-transform step of `indexBaseAaveMetrics` (lines 136-259),
from the formatted raw data to the `metricsData` snapshot. Besides the
raw data it reads the current block number and — through
`dayjs().unix()` on line 136 — the wall clock, passed here as `now`. -/
def transformLive (raw : RawMarketData) (currentBlock : ℕ) (now : ℕ) : Snapshot :=
  let metricsPerToken :=
    raw.reservesData.map (mkTokenMetricLive raw.marketReferenceCurrencyPriceInUsd)
  { network := "Base"
    chainId := 8453
    blockNumber := currentBlock
    timestamp := now
    date := toISOStringFromSec now
    totalMarketSize := calculateTotalMarketSize raw.reservesData
    totalAvailable := calculateTotalAvailable raw.reservesData
    totalBorrows := calculateTotalBorrows raw.reservesData
    averageUtilization := calculateAverageUtilization raw.reservesData
    tokenCount := metricsPerToken.length
    tokenMetrics := metricsPerToken }

/-! ## Storage model (src/db-storage.js) -/

/-- One row of the `aave_market_metrics` table (schema lines 24-35; the
`created_at` default column is not modelled, no source code reads it). -/
structure AggRow where
  blockNumber : ℕ
  timestamp : ℕ
  network : String
  totalMarketSize : ℚ
  totalBorrows : ℚ
  averageUtilization : ℚ
  tokenCount : ℕ
deriving DecidableEq

/-- One row of a per-token `aave_token_*` table (schema lines 56-76).
`supplyCap`/`borrowCap` are nullable columns: `none` is SQL NULL. -/
structure TokenRow where
  blockNumber : ℕ
  timestamp : ℕ
  tokenName : String
  priceUsd : ℚ
  totalSupplied : ℚ
  totalSuppliedUsd : ℚ
  totalBorrowed : ℚ
  totalBorrowedUsd : ℚ
  utilizationRate : ℚ
  supplyApy : ℚ
  borrowApy : ℚ
  reserveFactor : ℚ
  liquidationThreshold : ℚ
  borrowEnabled : Bool
  supplyCap : Option ℚ
  borrowCap : Option ℚ
deriving DecidableEq

/-- The token tables: association list from table name to rows; a table
exists exactly when its name is a key. -/
abbrev TokenTables := List (String × List TokenRow)

/-- The database: the aggregate table (`none` if `aave_market_metrics`
does not exist) and the per-token tables. -/
structure DbState where
  aggTable : Option (List AggRow)
  tokenTables : TokenTables
deriving DecidableEq

/-- ASCII lower-casing of one character, as `toLowerCase` acts on the
ASCII symbols the market uses. -/
def jsToLowerChar (c : Char) : Char :=
  if 65 ≤ c.toNat ∧ c.toNat ≤ 90 then Char.ofNat (c.toNat + 32) else c

/-- The table a symbol maps to (line 128):
``aave_token_${token.symbol.toLowerCase().replace(/[^a-z0-9]/g, '_')}``. -/
def tokenTableName (symbol : String) : String :=
  "aave_token_" ++ String.mk (symbol.data.map (fun c =>
    let lc := jsToLowerChar c
    if lc.isLower || lc.isDigit then lc else '_'))

/-- First table with the given name. -/
def lookupTable (name : String) : TokenTables → Option (List TokenRow)
  | [] => none
  | (n, rows) :: rest => if n = name then some rows else lookupTable name rest

/-- Replace the rows of the named table (a no-op when the table is absent). -/
def setTable (name : String) (rows : List TokenRow) : TokenTables → TokenTables
  | [] => []
  | (n, rs) :: rest =>
    if n = name then (n, rows) :: setTable name rows rest
    else (n, rs) :: setTable name rows rest

/-- The `ON CONFLICT (block_number) DO UPDATE SET` clause of the
aggregate insert (lines 108-113): every column except `network` (and the
key) is overwritten from the excluded row. -/
def updateAggRow (oldRow newRow : AggRow) : AggRow :=
  { blockNumber := oldRow.blockNumber
    timestamp := newRow.timestamp
    network := oldRow.network
    totalMarketSize := newRow.totalMarketSize
    totalBorrows := newRow.totalBorrows
    averageUtilization := newRow.averageUtilization
    tokenCount := newRow.tokenCount }

/-- The `ON CONFLICT (block_number) DO UPDATE SET` clause of the
per-token insert (lines 139-153): every column except `token_name` (and
the key) is overwritten from the excluded row. -/
def updateTokenRow (oldRow newRow : TokenRow) : TokenRow :=
  { blockNumber := oldRow.blockNumber
    timestamp := newRow.timestamp
    tokenName := oldRow.tokenName
    priceUsd := newRow.priceUsd
    totalSupplied := newRow.totalSupplied
    totalSuppliedUsd := newRow.totalSuppliedUsd
    totalBorrowed := newRow.totalBorrowed
    totalBorrowedUsd := newRow.totalBorrowedUsd
    utilizationRate := newRow.utilizationRate
    supplyApy := newRow.supplyApy
    borrowApy := newRow.borrowApy
    reserveFactor := newRow.reserveFactor
    liquidationThreshold := newRow.liquidationThreshold
    borrowEnabled := newRow.borrowEnabled
    supplyCap := newRow.supplyCap
    borrowCap := newRow.borrowCap }

/-- Upsert keyed by `block_number` into the aggregate table. -/
def upsertAggRows (row : AggRow) : List AggRow → List AggRow
  | [] => [row]
  | r :: rest =>
    if r.blockNumber = row.blockNumber then updateAggRow r row :: rest
    else r :: upsertAggRows row rest

/-- Upsert keyed by `block_number` into a per-token table. -/
def upsertTokenRows (row : TokenRow) : List TokenRow → List TokenRow
  | [] => [row]
  | r :: rest =>
    if r.blockNumber = row.blockNumber then updateTokenRow r row :: rest
    else r :: upsertTokenRows row rest

/-- The aggregate row `storeMetrics` binds (lines 114-122). -/
def aggRowOf (m : Snapshot) : AggRow :=
  { blockNumber := m.blockNumber
    timestamp := m.timestamp
    network := m.network
    totalMarketSize := m.totalMarketSize
    totalBorrows := m.totalBorrows
    averageUtilization := m.averageUtilization
    tokenCount := m.tokenCount }

/-- The per-token row `storeMetrics` binds (lines 154-171); the caps go
through `token.supplyCap === Infinity ? null : token.supplyCap`. -/
def tokenRowOf (blockNumber timestamp : ℕ) (t : TokenMetric) : TokenRow :=
  { blockNumber := blockNumber
    timestamp := timestamp
    tokenName := t.token
    priceUsd := t.priceInUSD
    totalSupplied := t.totalSupplied
    totalSuppliedUsd := t.totalSuppliedUSD
    totalBorrowed := t.totalBorrowed
    totalBorrowedUsd := t.totalBorrowedUSD
    utilizationRate := t.utilizationRate
    supplyApy := t.supplyAPY
    borrowApy := t.variableBorrowAPY
    reserveFactor := t.reserveFactor
    liquidationThreshold := t.liquidationThreshold
    borrowEnabled := t.borrowEnabled
    supplyCap := t.supplyCap.toSql
    borrowCap := t.borrowCap.toSql }

/-- Execute the aggregate `INSERT ... ON CONFLICT` (statement number `i`)
on the transaction's working state: fails when the fault oracle fires or
the table does not exist. -/
def insertAggRow (fault : ℕ → Bool) (i : ℕ) (row : AggRow) (w : DbState) : Option DbState :=
  if fault i then none
  else
    match w.aggTable with
    | none => none
    | some rows => some { w with aggTable := some (upsertAggRows row rows) }

/-- Execute one per-token `INSERT ... ON CONFLICT` (statement number `i`)
on the transaction's working state: fails when the fault oracle fires or
the token's table does not exist. -/
def insertTokenRow (fault : ℕ → Bool) (i : ℕ) (name : String) (row : TokenRow)
    (w : DbState) : Option DbState :=
  if fault i then none
  else
    match lookupTable name w.tokenTables with
    | none => none
    | some rows =>
      some { w with tokenTables := setTable name (upsertTokenRows row rows) w.tokenTables }

/-- The `for (const token of metricsData.tokenMetrics)` loop of
`storeMetrics` (lines 127-174), executed on the working state. -/
def storeTokenMetrics (fault : ℕ → Bool) (i : ℕ) (blockNumber timestamp : ℕ) :
    List TokenMetric → DbState → Option DbState
  | [], w => some w
  | t :: rest, w =>
    match insertTokenRow fault i (tokenTableName t.symbol)
        (tokenRowOf blockNumber timestamp t) w with
    | none => none
    | some w2 => storeTokenMetrics fault (i + 1) blockNumber timestamp rest w2

/-- Source function `storeMetrics` (lines 96-189): `BEGIN`, the aggregate insert, one
insert per token, then `COMMIT`; on any statement failure `ROLLBACK`
discards the working state and the error is rethrown. The inserts run on
a working copy of the database that only `COMMIT` publishes; the returned
Bool is `true` for a committed write and `false` for a rethrown error. -/
def storeMetrics (fault : ℕ → Bool) (db : DbState) (m : Snapshot) : DbState × Bool :=
  match insertAggRow fault 0 (aggRowOf m) db with
  | none => (db, false)
  | some w1 =>
    match storeTokenMetrics fault 1 m.blockNumber m.timestamp m.tokenMetrics w1 with
    | none => (db, false)
    | some w2 => (w2, true)

/-- The fault oracle of a fully available database. -/
def noFault : ℕ → Bool := fun _ => false

/-- The complete write unit of a snapshot, fault-free: the aggregate
upsert followed by every per-token upsert. -/
def fullWrite (db : DbState) (m : Snapshot) : Option DbState :=
  match insertAggRow noFault 0 (aggRowOf m) db with
  | none => none
  | some w1 => storeTokenMetrics noFault 1 m.blockNumber m.timestamp m.tokenMetrics w1

/-- The default token list of `initializeDatabase` (line 48). -/
def defaultTokenSymbols : List String :=
  ["WETH", "USDC", "USDbC", "wstETH", "cbETH", "cbBTC", "GHO", "weETH",
   "ezETH", "wrsETH", "LBTC", "EURC"]

/-- One `CREATE TABLE IF NOT EXISTS` for one token table. -/
def createTableIfNotExists (tables : TokenTables) (name : String) : TokenTables :=
  match lookupTable name tables with
  | some _ => tables
  | none => tables ++ [(name, [])]

/-- Source function `initializeDatabase` (lines 17-90): creates the aggregate table and
one table per symbol of `tokenSymbols` (the symbols of the latest metrics
file when it exists, otherwise `defaultTokenSymbols`), each if absent. -/
def initializeDatabase (db : DbState) (tokenSymbols : List String) : DbState :=
  { aggTable := some (db.aggTable.getD [])
    tokenTables :=
      tokenSymbols.foldl (fun tables sym => createTableIfNotExists tables (tokenTableName sym))
        db.tokenTables }

/-- Rows of the aggregate table at a block number. -/
def aggRowsAt (db : DbState) (b : ℕ) : List AggRow :=
  (db.aggTable.getD []).filter (fun r => r.blockNumber = b)

/-- Rows of a named token table at a block number. -/
def tokenRowsAt (db : DbState) (name : String) (b : ℕ) : List TokenRow :=
  ((lookupTable name db.tokenTables).getD []).filter (fun r => r.blockNumber = b)

/-- The aggregate table exists and has no row at block `b`. -/
def aggFreshAt (db : DbState) (b : ℕ) : Bool :=
  match db.aggTable with
  | none => false
  | some rows => rows.all (fun r => r.blockNumber ≠ b)

/-- The named token table exists and has no row at block `b`. -/
def tokenTableFreshAt (db : DbState) (name : String) (b : ℕ) : Bool :=
  match lookupTable name db.tokenTables with
  | none => false
  | some rows => rows.all (fun r => r.blockNumber ≠ b)

/-! ## Transform-level lemmas -/

/-- Folding `total + g r` over a list sums the mapped values. -/
lemma foldl_add_eq_sum {α : Type} (g : α → ℚ) :
    ∀ (l : List α) (a : ℚ), l.foldl (fun total r => total + g r) a = a + (l.map g).sum := by
  intro l
  induction l with
  | nil => intro a; simp
  | cons x xs ih => intro a; simp [ih, add_assoc]

/-- Sums of pointwise-equal maps agree. -/
lemma map_sum_congr {α : Type} (f g : α → ℚ) :
    ∀ (l : List α), (∀ r ∈ l, f r = g r) → (l.map f).sum = (l.map g).sum := by
  intro l
  induction l with
  | nil => intro _; rfl
  | cons x xs ih =>
    intro h
    simp only [List.map_cons, List.sum_cons, h x (List.mem_cons_self x xs),
      ih (fun r hr => h r (List.mem_cons_of_mem x hr))]

/-- Dividing by 10^18 and multiplying by 100 is dividing by 10^16. -/
lemma div_pow18_mul_hundred (x : ℚ) : x / 10 ^ 18 * 100 = x / 10 ^ 16 := by
  rw [div_mul_eq_mul_div, show ((10 : ℚ) ^ 18) = 10 ^ 16 * 100 by norm_num]
  exact mul_div_mul_right x _ (by norm_num)

/-- The spec's percent-change rule, stated from its words (§4.5): 0 when
both are 0, 100 when only the start is 0, else (y-x)/|x|*100. -/
def percentChangeSpec (x y : ℚ) : ℚ :=
  if x = 0 ∧ y = 0 then 0 else if x = 0 then 100 else (y - x) / |x| * 100

/-! ## Claims about the transform and the diff engine -/

/-- Claim C4: the diff engine's percent-change function agrees with the
spec's piecewise rule on all inputs, and takes the given values on the
three example pairs. -/
theorem calculatePercentChange_correct : ∀ x y : ℚ,
    calculatePercentChange x y = percentChangeSpec x y ∧
    calculatePercentChange 0 0 = 0 ∧
    calculatePercentChange 0 50 = 100 ∧
    calculatePercentChange 100 150 = 50 := by
  intro x y
  refine ⟨?_, by norm_num [calculatePercentChange], by norm_num [calculatePercentChange],
    by norm_num [calculatePercentChange]⟩
  unfold calculatePercentChange percentChangeSpec
  by_cases hx : x = 0 <;> by_cases hy : y = 0 <;> simp [hx, hy]

/-- Claim C10: in both ingestion paths the utilization rate is the
guarded ratio — `totalBorrowed/totalSupplied*100` when the supply is
positive and `0` when it is zero, never an unguarded division. -/
theorem utilizationRate_guarded : ∀ (ref : ℚ) (r : RawReserve),
    ((mkTokenMetricLive ref r).utilizationRate =
      if 0 < r.totalLiquidity then r.totalDebt / r.totalLiquidity * 100 else 0) ∧
    ((mkTokenMetricHist ref r).utilizationRate =
      if 0 < r.totalLiquidity then r.totalDebt / r.totalLiquidity * 100 else 0) ∧
    (r.totalLiquidity = 0 → (mkTokenMetricLive ref r).utilizationRate = 0) ∧
    (r.totalLiquidity = 0 → (mkTokenMetricHist ref r).utilizationRate = 0) := by
  intro ref r
  refine ⟨rfl, rfl, ?_, ?_⟩ <;>
    · intro h
      simp [mkTokenMetricLive, mkTokenMetricHist, h]

/-- A concrete reserve whose cap field parses to the JS `Infinity`. -/
def rawReserveInfCap : RawReserve :=
  { name := "Wrapped Ether", symbol := "WETH",
    priceInMarketReferenceCurrency := 2, totalLiquidity := 5, totalDebt := 1,
    totalLiquidityUSD := 10, totalDebtUSD := 2, reserves := 0, reserveFactor := 0,
    formattedReserveLiquidationThreshold := 80, borrowingEnabled := true,
    supplyCap := JsNum.inf, borrowCap := JsNum.fin 100,
    supplyAPY := 0, variableBorrowAPY := 0, stableBorrowAPY := 0 }

/-- Claim C5 counterexample: the produced snapshot represents an
unbounded supply cap precisely as the raw numeric infinity (the claim
says it is never a raw numeric infinity); the storage boundary then maps
it to SQL NULL. -/
theorem capSentinel_counterexample :
    (mkTokenMetricLive 2 rawReserveInfCap).supplyCap = JsNum.inf ∧
    (tokenRowOf 1 1 (mkTokenMetricLive 2 rawReserveInfCap)).supplyCap = none := by
  exact ⟨rfl, rfl⟩

/-- Claim C5 amended: an unbounded cap is carried through the transform
as the numeric `Infinity` value itself (which, as a sentinel, differs
from every finite value), and at the storage boundary exactly the
infinite caps become SQL NULL while finite caps keep their value. -/
theorem capSentinel_infinity_and_null : ∀ (ref : ℚ) (r : RawReserve) (b ts : ℕ),
    (mkTokenMetricLive ref r).supplyCap = r.supplyCap ∧
    (mkTokenMetricLive ref r).borrowCap = r.borrowCap ∧
    (∀ q : ℚ, JsNum.inf ≠ JsNum.fin q) ∧
    ((tokenRowOf b ts (mkTokenMetricLive ref r)).supplyCap = none ↔ r.supplyCap = JsNum.inf) ∧
    ((tokenRowOf b ts (mkTokenMetricLive ref r)).borrowCap = none ↔ r.borrowCap = JsNum.inf) ∧
    (∀ q : ℚ, r.supplyCap = JsNum.fin q →
      (tokenRowOf b ts (mkTokenMetricLive ref r)).supplyCap = some q) := by
  intro ref r b ts
  refine ⟨rfl, rfl, ?_, ?_, ?_, ?_⟩
  · intro q h
    cases h
  · cases h : r.supplyCap <;> simp [tokenRowOf, mkTokenMetricLive, JsNum.toSql, h]
  · cases h : r.borrowCap <;> simp [tokenRowOf, mkTokenMetricLive, JsNum.toSql, h]
  · intro q h
    simp [tokenRowOf, mkTokenMetricLive, JsNum.toSql, h]

/-- A concrete reserve with a zero market-reference price. -/
def rawReserveZeroPrice : RawReserve :=
  { name := "Gho Token", symbol := "GHO",
    priceInMarketReferenceCurrency := 0, totalLiquidity := 5, totalDebt := 1,
    totalLiquidityUSD := 0, totalDebtUSD := 0, reserves := 0, reserveFactor := 0,
    formattedReserveLiquidationThreshold := 80, borrowingEnabled := true,
    supplyCap := JsNum.fin 100, borrowCap := JsNum.fin 50,
    supplyAPY := 1, variableBorrowAPY := 2, stableBorrowAPY := 0 }

/-- Claim C6 counterexample: on a reserve record whose price is zero the
live path and the historical path produce exactly the same per-token
metrics, so the two paths are not value-distinct on every input. -/
theorem price_divisor_zero_price_counterexample :
    mkTokenMetricHist 3 rawReserveZeroPrice = mkTokenMetricLive 3 rawReserveZeroPrice := by
  simp [mkTokenMetricHist, mkTokenMetricLive, rawReserveZeroPrice, TokenMetric.mk.injEq]

/-- Claim C6 amended: the two paths divide by 10^16 and 10^18
respectively, so the historical price and each USD figure derived from it
are exactly 100 times smaller than the live ones, and whenever the
reserve's reference price times the reference-currency USD price is
nonzero the two paths disagree on the per-token metrics. -/
theorem price_divisor_mismatch : ∀ (ref : ℚ) (r : RawReserve),
    (mkTokenMetricHist ref r).priceInUSD * 100 = (mkTokenMetricLive ref r).priceInUSD ∧
    (mkTokenMetricHist ref r).liquidityUSD * 100 = (mkTokenMetricLive ref r).liquidityUSD ∧
    (mkTokenMetricHist ref r).totalSuppliedUSD * 100 =
      (mkTokenMetricLive ref r).totalSuppliedUSD ∧
    (mkTokenMetricHist ref r).totalBorrowedUSD * 100 =
      (mkTokenMetricLive ref r).totalBorrowedUSD ∧
    (r.priceInMarketReferenceCurrency * ref ≠ 0 →
      mkTokenMetricHist ref r ≠ mkTokenMetricLive ref r) := by
  intro ref r
  have hp : (mkTokenMetricHist ref r).priceInUSD * 100 = (mkTokenMetricLive ref r).priceInUSD :=
    div_pow18_mul_hundred _
  refine ⟨hp, ?_, ?_, ?_, ?_⟩
  · show (r.totalLiquidity - r.totalDebt) * (mkTokenMetricHist ref r).priceInUSD * 100 = _
    rw [mul_assoc, hp]; rfl
  · show r.totalLiquidity * (mkTokenMetricHist ref r).priceInUSD * 100 = _
    rw [mul_assoc, hp]; rfl
  · show r.totalDebt * (mkTokenMetricHist ref r).priceInUSD * 100 = _
    rw [mul_assoc, hp]; rfl
  · intro hx heq
    have h1 := congrArg TokenMetric.priceInUSD heq
    rw [← hp] at h1
    have hz : (mkTokenMetricHist ref r).priceInUSD ≠ 0 :=
      div_ne_zero hx (by norm_num)
    have h2 : (mkTokenMetricHist ref r).priceInUSD * 1 =
        (mkTokenMetricHist ref r).priceInUSD * 100 := by
      rw [mul_one]; exact h1
    have := mul_left_cancel₀ hz h2
    norm_num at this

/-- A concrete raw market with no reserves. -/
def rawMarketEmpty : RawMarketData := { reservesData := [], marketReferenceCurrencyPriceInUsd := 1 }

/-- Claim C3 counterexample: the transform reads the wall clock
(`dayjs().unix()`), so two runs on the same raw data at clock readings
1000 and 2000 produce snapshots that differ (in the timestamp and date
fields). -/
theorem transformLive_wallclock_counterexample :
    transformLive rawMarketEmpty 100 1000 ≠ transformLive rawMarketEmpty 100 2000 := by
  intro h
  exact absurd (congrArg Snapshot.timestamp h) (by decide)

/-- Claim C3 amended: the transform is a function of the raw data, the
block number and the observed wall-clock time; with the clock reading
fixed it is deterministic, and two runs on equal raw data agree exactly
when their clock readings agree (the snapshot's timestamp field is the
clock reading itself). -/
theorem transformLive_deterministic_given_clock : ∀ (raw : RawMarketData) (b now now2 : ℕ),
    (transformLive raw b now).timestamp = now ∧
    (transformLive raw b now = transformLive raw b now2 ↔ now = now2) := by
  intro raw b now now2
  refine ⟨rfl, ?_, ?_⟩
  · intro h
    exact congrArg Snapshot.timestamp h
  · intro h
    rw [h]

/-- A concrete reserve whose library-computed `totalLiquidityUSD` (scaled
with the proper 10^18 divisor) differs from `totalSupplied * priceInUSD`
as the live map computes the latter with the 10^16 divisor. -/
def rawReserveScaled : RawReserve :=
  { name := "Wrapped Ether", symbol := "WETH",
    priceInMarketReferenceCurrency := 10 ^ 16, totalLiquidity := 10, totalDebt := 4,
    totalLiquidityUSD := 1 / 10, totalDebtUSD := 1 / 25, reserves := 0, reserveFactor := 0,
    formattedReserveLiquidationThreshold := 80, borrowingEnabled := true,
    supplyCap := JsNum.fin 0, borrowCap := JsNum.fin 0,
    supplyAPY := 0, variableBorrowAPY := 0, stableBorrowAPY := 0 }

/-- A one-reserve raw market built from `rawReserveScaled`. -/
def rawMarketScaled : RawMarketData :=
  { reservesData := [rawReserveScaled], marketReferenceCurrencyPriceInUsd := 1 }

/-- Claim C7 counterexample: the aggregate `totalMarketSize` sums the raw
`totalLiquidityUSD` fields, while the per-token `totalSuppliedUSD` values
are `totalSupplied` times the 10^16-scaled price, so on this snapshot the
aggregate (1/10) is not the sum of the per-token USD values (10). -/
theorem aggregate_totals_counterexample :
    (transformLive rawMarketScaled 1 0).totalMarketSize ≠
      ((transformLive rawMarketScaled 1 0).tokenMetrics.map
        (fun t => t.totalSuppliedUSD)).sum := by
  simp [transformLive, rawMarketScaled, rawReserveScaled, calculateTotalMarketSize,
    mkTokenMetricLive]
  norm_num

/-- Claim C7 amended: the aggregates sum the raw reserves' own USD
fields — `totalMarketSize` is the sum of the `totalLiquidityUSD` fields
and `totalBorrows` the sum of the `totalDebtUSD` fields — and they equal
the sums of the per-token `totalSuppliedUSD`/`totalBorrowedUSD` values
exactly when each reserve's raw USD fields agree with `totalSupplied *
priceInUSD` and `totalBorrowed * priceInUSD` under the live path's
10^16-scaled price. -/
theorem aggregate_totals_amended : ∀ (raw : RawMarketData) (b now : ℕ),
    (transformLive raw b now).totalMarketSize =
      (raw.reservesData.map (fun r => r.totalLiquidityUSD)).sum ∧
    (transformLive raw b now).totalBorrows =
      (raw.reservesData.map (fun r => r.totalDebtUSD)).sum ∧
    ((∀ r ∈ raw.reservesData,
        r.totalLiquidityUSD = r.totalLiquidity *
          (r.priceInMarketReferenceCurrency * raw.marketReferenceCurrencyPriceInUsd / 10 ^ 16) ∧
        r.totalDebtUSD = r.totalDebt *
          (r.priceInMarketReferenceCurrency * raw.marketReferenceCurrencyPriceInUsd / 10 ^ 16)) →
      (transformLive raw b now).totalMarketSize =
        ((transformLive raw b now).tokenMetrics.map (fun t => t.totalSuppliedUSD)).sum ∧
      (transformLive raw b now).totalBorrows =
        ((transformLive raw b now).tokenMetrics.map (fun t => t.totalBorrowedUSD)).sum) := by
  intro raw b now
  have hms : (transformLive raw b now).totalMarketSize =
      (raw.reservesData.map (fun r => r.totalLiquidityUSD)).sum := by
    show calculateTotalMarketSize raw.reservesData = _
    unfold calculateTotalMarketSize
    rw [foldl_add_eq_sum (fun r : RawReserve => r.totalLiquidityUSD)]
    simp
  have hbs : (transformLive raw b now).totalBorrows =
      (raw.reservesData.map (fun r => r.totalDebtUSD)).sum := by
    show calculateTotalBorrows raw.reservesData = _
    unfold calculateTotalBorrows
    rw [foldl_add_eq_sum (fun r : RawReserve => r.totalDebtUSD)]
    simp
  refine ⟨hms, hbs, ?_⟩
  intro hcons
  have hmap : (transformLive raw b now).tokenMetrics =
      raw.reservesData.map (mkTokenMetricLive raw.marketReferenceCurrencyPriceInUsd) := rfl
  constructor
  · rw [hms, hmap, List.map_map]
    exact map_sum_congr _ _ raw.reservesData (fun r hr => (hcons r hr).1)
  · rw [hbs, hmap, List.map_map]
    exact map_sum_congr _ _ raw.reservesData (fun r hr => (hcons r hr).2)

/-! ## Storage lemmas -/

lemma lookupTable_setTable_self (name : String) (rows : List TokenRow) :
    ∀ ts : TokenTables,
      lookupTable name (setTable name rows ts) = (lookupTable name ts).map (fun _ => rows) := by
  intro ts
  induction ts with
  | nil => rfl
  | cons p rest ih =>
    obtain ⟨n, rs⟩ := p
    by_cases h : n = name <;> simp [setTable, lookupTable, h, ih]

lemma lookupTable_setTable_other (name : String) (rows : List TokenRow) (x : String)
    (hx : ¬ x = name) :
    ∀ ts : TokenTables, lookupTable x (setTable name rows ts) = lookupTable x ts := by
  intro ts
  induction ts with
  | nil => rfl
  | cons p rest ih =>
    obtain ⟨n, rs⟩ := p
    have hnx : ¬ name = x := fun he => hx he.symm
    by_cases hp : n = name
    · have hpx : ¬ n = x := by rw [hp]; exact fun he => hx he.symm
      simp [setTable, lookupTable, hp, hpx, hnx, ih]
    · by_cases hpx : n = x <;> simp [setTable, lookupTable, hp, hpx, hx, ih]

lemma isSome_lookupTable_setTable (name : String) (rows : List TokenRow) (x : String)
    (ts : TokenTables) :
    (lookupTable x (setTable name rows ts)).isSome = (lookupTable x ts).isSome := by
  by_cases hx : x = name
  · subst hx
    rw [lookupTable_setTable_self]
    cases lookupTable x ts <;> rfl
  · rw [lookupTable_setTable_other name rows x hx]

lemma updateAggRow_self (r : AggRow) : updateAggRow r r = r := rfl

lemma updateTokenRow_self (r : TokenRow) : updateTokenRow r r = r := rfl

lemma upsertAggRows_fresh (row : AggRow) :
    ∀ rows : List AggRow, (∀ r ∈ rows, r.blockNumber ≠ row.blockNumber) →
      upsertAggRows row rows = rows ++ [row] := by
  intro rows
  induction rows with
  | nil => intro _; rfl
  | cons r rest ih =>
    intro h
    have hr := h r (List.mem_cons_self r rest)
    simp [upsertAggRows, hr, ih (fun x hx => h x (List.mem_cons_of_mem r hx))]

lemma upsertAggRows_last (row0 row : AggRow) (h0 : row0.blockNumber = row.blockNumber) :
    ∀ rows : List AggRow, (∀ r ∈ rows, r.blockNumber ≠ row.blockNumber) →
      upsertAggRows row (rows ++ [row0]) = rows ++ [updateAggRow row0 row] := by
  intro rows
  induction rows with
  | nil => intro _; simp [upsertAggRows, h0]
  | cons r rest ih =>
    intro h
    have hr := h r (List.mem_cons_self r rest)
    simp [upsertAggRows, hr, ih (fun x hx => h x (List.mem_cons_of_mem r hx))]

lemma upsertTokenRows_fresh (row : TokenRow) :
    ∀ rows : List TokenRow, (∀ r ∈ rows, r.blockNumber ≠ row.blockNumber) →
      upsertTokenRows row rows = rows ++ [row] := by
  intro rows
  induction rows with
  | nil => intro _; rfl
  | cons r rest ih =>
    intro h
    have hr := h r (List.mem_cons_self r rest)
    simp [upsertTokenRows, hr, ih (fun x hx => h x (List.mem_cons_of_mem r hx))]

lemma upsertTokenRows_last (row0 row : TokenRow) (h0 : row0.blockNumber = row.blockNumber) :
    ∀ rows : List TokenRow, (∀ r ∈ rows, r.blockNumber ≠ row.blockNumber) →
      upsertTokenRows row (rows ++ [row0]) = rows ++ [updateTokenRow row0 row] := by
  intro rows
  induction rows with
  | nil => intro _; simp [upsertTokenRows, h0]
  | cons r rest ih =>
    intro h
    have hr := h r (List.mem_cons_self r rest)
    simp [upsertTokenRows, hr, ih (fun x hx => h x (List.mem_cons_of_mem r hx))]

lemma filter_agg_single (b : ℕ) (row : AggRow) (hrow : row.blockNumber = b) :
    ∀ rows : List AggRow, (∀ r ∈ rows, r.blockNumber ≠ b) →
      (rows ++ [row]).filter (fun r => r.blockNumber = b) = [row] := by
  intro rows
  induction rows with
  | nil => intro _; simp [List.filter, hrow]
  | cons r rest ih =>
    intro h
    have hr := h r (List.mem_cons_self r rest)
    simp [List.filter_cons, hr, ih (fun x hx => h x (List.mem_cons_of_mem r hx))]

lemma filter_token_single (b : ℕ) (row : TokenRow) (hrow : row.blockNumber = b) :
    ∀ rows : List TokenRow, (∀ r ∈ rows, r.blockNumber ≠ b) →
      (rows ++ [row]).filter (fun r => r.blockNumber = b) = [row] := by
  intro rows
  induction rows with
  | nil => intro _; simp [List.filter, hrow]
  | cons r rest ih =>
    intro h
    have hr := h r (List.mem_cons_self r rest)
    simp [List.filter_cons, hr, ih (fun x hx => h x (List.mem_cons_of_mem r hx))]

lemma insertAggRow_nf (i : ℕ) (row : AggRow) (db : DbState) (rows : List AggRow)
    (h : db.aggTable = some rows) :
    insertAggRow noFault i row db = some { db with aggTable := some (upsertAggRows row rows) } := by
  simp [insertAggRow, noFault, h]

lemma insertTokenRow_nf (i : ℕ) (name : String) (row : TokenRow) (w : DbState)
    (rows : List TokenRow) (h : lookupTable name w.tokenTables = some rows) :
    insertTokenRow noFault i name row w =
      some { w with tokenTables := setTable name (upsertTokenRows row rows) w.tokenTables } := by
  simp [insertTokenRow, noFault, h]

lemma insertAggRow_success_nf (fault : ℕ → Bool) (i j : ℕ) (row : AggRow) (db w : DbState)
    (h : insertAggRow fault i row db = some w) : insertAggRow noFault j row db = some w := by
  by_cases hf : fault i
  · simp [insertAggRow, hf] at h
  · simpa [insertAggRow, noFault] using (by simpa [insertAggRow, hf] using h)

lemma insertTokenRow_success_nf (fault : ℕ → Bool) (i j : ℕ) (name : String) (row : TokenRow)
    (w w2 : DbState) (h : insertTokenRow fault i name row w = some w2) :
    insertTokenRow noFault j name row w = some w2 := by
  by_cases hf : fault i
  · simp [insertTokenRow, hf] at h
  · simpa [insertTokenRow, noFault] using (by simpa [insertTokenRow, hf] using h)

lemma insertAggRow_tokenTables (fault : ℕ → Bool) (i : ℕ) (row : AggRow) (db w : DbState)
    (h : insertAggRow fault i row db = some w) : w.tokenTables = db.tokenTables := by
  by_cases hf : fault i
  · simp [insertAggRow, hf] at h
  · simp [insertAggRow, hf] at h
    cases hdb : db.aggTable with
    | none => rw [hdb] at h; simp at h
    | some rows =>
      rw [hdb] at h
      simp at h
      rw [← h]

lemma storeTokenMetrics_success_nf (fault : ℕ → Bool) (b ts : ℕ) :
    ∀ (toks : List TokenMetric) (w w2 : DbState) (i j : ℕ),
      storeTokenMetrics fault i b ts toks w = some w2 →
      storeTokenMetrics noFault j b ts toks w = some w2 := by
  intro toks
  induction toks with
  | nil => intro w w2 i j h; exact h
  | cons t rest ih =>
    intro w w2 i j h
    unfold storeTokenMetrics at h
    cases h1 : insertTokenRow fault i (tokenTableName t.symbol) (tokenRowOf b ts t) w with
    | none => rw [h1] at h; exact absurd h (by simp)
    | some w1 =>
      rw [h1] at h
      simp at h
      have h2 := insertTokenRow_success_nf fault i j _ _ w w1 h1
      unfold storeTokenMetrics
      rw [h2]
      exact ih w1 w2 (i + 1) (j + 1) h

lemma storeTokenMetrics_nf_spec (b ts : ℕ) :
    ∀ (toks : List TokenMetric) (w : DbState) (i : ℕ),
      (∀ t ∈ toks, (lookupTable (tokenTableName t.symbol) w.tokenTables).isSome = true) →
      (toks.map (fun t => tokenTableName t.symbol)).Nodup →
      ∃ w2, storeTokenMetrics noFault i b ts toks w = some w2 ∧
        w2.aggTable = w.aggTable ∧
        (∀ nm : String, (∀ t ∈ toks, tokenTableName t.symbol ≠ nm) →
          lookupTable nm w2.tokenTables = lookupTable nm w.tokenTables) ∧
        (∀ t ∈ toks, lookupTable (tokenTableName t.symbol) w2.tokenTables =
          (lookupTable (tokenTableName t.symbol) w.tokenTables).map
            (fun rows => upsertTokenRows (tokenRowOf b ts t) rows)) := by
  intro toks
  induction toks with
  | nil =>
    intro w i _ _
    exact ⟨w, rfl, rfl, fun _ _ => rfl, fun t ht => absurd ht (List.not_mem_nil t)⟩
  | cons t rest ih =>
    intro w i hsome hnd
    obtain ⟨rows_t, hrt⟩ :=
      Option.isSome_iff_exists.mp (hsome t (List.mem_cons_self t rest))
    have hins := insertTokenRow_nf i (tokenTableName t.symbol) (tokenRowOf b ts t) w rows_t hrt
    obtain ⟨w1, hins2, hw1⟩ : ∃ w1 : DbState,
        insertTokenRow noFault i (tokenTableName t.symbol) (tokenRowOf b ts t) w = some w1 ∧
        (w1.aggTable = w.aggTable ∧ w1.tokenTables =
          setTable (tokenTableName t.symbol) (upsertTokenRows (tokenRowOf b ts t) rows_t)
            w.tokenTables) :=
      ⟨_, hins, rfl, rfl⟩
    rw [List.map_cons, List.nodup_cons] at hnd
    obtain ⟨hnd1, hnd2⟩ := hnd
    have hne : ∀ t2 ∈ rest, tokenTableName t2.symbol ≠ tokenTableName t.symbol := by
      intro t2 h2 he
      exact hnd1 (he ▸ List.mem_map_of_mem (fun t3 => tokenTableName t3.symbol) h2)
    have hsome1 : ∀ t2 ∈ rest,
        (lookupTable (tokenTableName t2.symbol) w1.tokenTables).isSome = true := by
      intro t2 h2
      rw [hw1.2, isSome_lookupTable_setTable]
      exact hsome t2 (List.mem_cons_of_mem t h2)
    obtain ⟨w2, hw2, hagg, hframe, hwrite⟩ := ih w1 (i + 1) hsome1 hnd2
    refine ⟨w2, ?_, ?_, ?_, ?_⟩
    · unfold storeTokenMetrics
      rw [hins2]
      exact hw2
    · rw [hagg, hw1.1]
    · intro nm hnm
      have h1 := hframe nm (fun t2 h2 => hnm t2 (List.mem_cons_of_mem t h2))
      rw [h1, hw1.2]
      exact lookupTable_setTable_other _ _ nm
        (fun he => hnm t (List.mem_cons_self t rest) he.symm) _
    · intro t2 ht2
      rcases List.mem_cons.mp ht2 with h | h
      · subst h
        have h1 := hframe (tokenTableName t2.symbol) (fun t3 h3 => hne t3 h3)
        rw [h1, hw1.2]
        rw [lookupTable_setTable_self, hrt]
        rfl
      · have h1 := hwrite t2 h
        rw [h1, hw1.2]
        rw [lookupTable_setTable_other _ _ _ (hne t2 h) _]

lemma storeMetrics_fail_unchanged (fault : ℕ → Bool) (db : DbState) (m : Snapshot)
    (h : (storeMetrics fault db m).2 = false) : (storeMetrics fault db m).1 = db := by
  unfold storeMetrics at *
  cases h1 : insertAggRow fault 0 (aggRowOf m) db with
  | none => simp [h1]
  | some w1 =>
    cases h2 : storeTokenMetrics fault 1 m.blockNumber m.timestamp m.tokenMetrics w1 with
    | none => simp [h1, h2]
    | some w2 => simp [h1, h2] at h

lemma storeMetrics_success_fullWrite (fault : ℕ → Bool) (db : DbState) (m : Snapshot)
    (h : (storeMetrics fault db m).2 = true) :
    fullWrite db m = some (storeMetrics fault db m).1 := by
  cases h1 : insertAggRow fault 0 (aggRowOf m) db with
  | none => simp [storeMetrics, h1] at h
  | some w1 =>
    cases h2 : storeTokenMetrics fault 1 m.blockNumber m.timestamp m.tokenMetrics w1 with
    | none => simp [storeMetrics, h1, h2] at h
    | some w2 =>
      have h1nf := insertAggRow_success_nf fault 0 0 (aggRowOf m) db w1 h1
      have h2nf := storeTokenMetrics_success_nf fault m.blockNumber m.timestamp
        m.tokenMetrics w1 w2 1 1 h2
      simp [storeMetrics, fullWrite, h1, h2, h1nf, h2nf]

/-! ## Claims about the storage layer -/

/-- Claim C1: `storeMetrics` is atomic per block. With an arbitrary fault
oracle: when the call reports failure the database is exactly as before
the call (the rollback discards every pending row and the error is
rethrown, `false` here), and when it reports success the database is
exactly the full write unit — the aggregate upsert followed by every
per-token upsert; moreover the call cannot succeed when the full write
unit cannot complete. -/
theorem storeMetrics_atomic_per_block : ∀ (fault : ℕ → Bool) (db : DbState) (m : Snapshot),
    ((storeMetrics fault db m).2 = false → (storeMetrics fault db m).1 = db) ∧
    ((storeMetrics fault db m).2 = true → fullWrite db m = some (storeMetrics fault db m).1) ∧
    (fullWrite db m = none → (storeMetrics fault db m).2 = false) := by
  intro fault db m
  refine ⟨storeMetrics_fail_unchanged fault db m, storeMetrics_success_fullWrite fault db m, ?_⟩
  intro hfw
  cases hb : (storeMetrics fault db m).2 with
  | false => rfl
  | true =>
    have hsw := storeMetrics_success_fullWrite fault db m hb
    rw [hfw] at hsw
    exact Option.noConfusion hsw

lemma storeTokenMetrics_missing_table (fault : ℕ → Bool) (b ts : ℕ) :
    ∀ (toks : List TokenMetric) (w : DbState),
      (∃ t ∈ toks, lookupTable (tokenTableName t.symbol) w.tokenTables = none) →
      ∀ i, storeTokenMetrics fault i b ts toks w = none := by
  intro toks
  induction toks with
  | nil =>
    intro w h i
    obtain ⟨t, ht, _⟩ := h
    exact absurd ht (List.not_mem_nil t)
  | cons t rest ih =>
    intro w h i
    obtain ⟨t0, ht0, hnone⟩ := h
    cases hins : insertTokenRow fault i (tokenTableName t.symbol) (tokenRowOf b ts t) w with
    | none => simp [storeTokenMetrics, hins]
    | some w1 =>
      have hstep : storeTokenMetrics fault i b ts (t :: rest) w =
          storeTokenMetrics fault (i + 1) b ts rest w1 := by
        simp [storeTokenMetrics, hins]
      by_cases hf : fault i
      · simp [insertTokenRow, hf] at hins
      · cases hrt : lookupTable (tokenTableName t.symbol) w.tokenTables with
        | none => simp [insertTokenRow, hf, hrt] at hins
        | some rows =>
          simp only [insertTokenRow, hf, hrt, if_false, Bool.false_eq_true,
            Option.some.injEq] at hins
          rcases List.mem_cons.mp ht0 with he | hmem
          · subst he
            rw [hnone] at hrt
            exact Option.noConfusion hrt
          · have hne : tokenTableName t0.symbol ≠ tokenTableName t.symbol := by
              intro he
              rw [he, hrt] at hnone
              exact Option.noConfusion hnone
            subst hins
            rw [hstep]
            apply ih
            refine ⟨t0, hmem, ?_⟩
            show lookupTable (tokenTableName t0.symbol)
              (setTable (tokenTableName t.symbol) (upsertTokenRows (tokenRowOf b ts t) rows)
                w.tokenTables) = none
            rw [lookupTable_setTable_other _ _ _ hne]
            exact hnone

/-- Claim C9 amended: `storeMetrics` never creates a table. When a token
of the snapshot has no per-asset table (regardless of the fault oracle),
the whole `put` fails and leaves the database exactly as it was; tables
only come into existence through `initializeDatabase`. -/
theorem put_fails_on_missing_table :
    ∀ (fault : ℕ → Bool) (db : DbState) (m : Snapshot) (t : TokenMetric),
    t ∈ m.tokenMetrics →
    lookupTable (tokenTableName t.symbol) db.tokenTables = none →
    storeMetrics fault db m = (db, false) := by
  intro fault db m t hmem hnone
  cases h1 : insertAggRow fault 0 (aggRowOf m) db with
  | none => simp [storeMetrics, h1]
  | some w1 =>
    have htt := insertAggRow_tokenTables fault 0 (aggRowOf m) db w1 h1
    have h2 : storeTokenMetrics fault 1 m.blockNumber m.timestamp m.tokenMetrics w1 = none := by
      apply storeTokenMetrics_missing_table
      refine ⟨t, hmem, ?_⟩
      rw [htt]
      exact hnone
    simp [storeMetrics, h1, h2]

/-- A token of an asset that was unknown when the schema was bootstrapped. -/
def newTokenMetric : TokenMetric :=
  { token := "New Token", symbol := "NEW", priceInUSD := 1, liquidity := 0,
    liquidityUSD := 0, totalSupplied := 0, totalSuppliedUSD := 0, totalBorrowed := 0,
    totalBorrowedUSD := 0, utilizationRate := 0, reserves := 0, reserveFactor := 0,
    liquidationThreshold := 0, borrowEnabled := true, supplyCap := JsNum.fin 5,
    borrowCap := JsNum.fin 5, supplyAPY := 0, variableBorrowAPY := 0, stableBorrowAPY := 0 }

/-- A snapshot containing only the unknown-at-bootstrap asset. -/
def snapshotNewAsset : Snapshot :=
  { network := "Base", chainId := 8453, blockNumber := 7, timestamp := 3,
    date := "1970-01-01T00:00:03.000Z", totalMarketSize := 0, totalAvailable := 0,
    totalBorrows := 0, averageUtilization := 0, tokenCount := 1,
    tokenMetrics := [newTokenMetric] }

/-- A database bootstrapped with only the WETH table. -/
def dbBootstrapped : DbState :=
  { aggTable := some [], tokenTables := [("aave_token_weth", [])] }

/-- Claim C9 counterexample: with a fully available database whose schema
lacks the new asset's table, `put` of a snapshot containing that asset
does not lazily create the table and succeed — it fails and leaves the
database unchanged. -/
theorem put_missing_table_counterexample :
    storeMetrics noFault dbBootstrapped snapshotNewAsset = (dbBootstrapped, false) := by
  decide

/-- Claim C9 witness: the amended theorem applied to the concrete
bootstrap database and new-asset snapshot. -/
theorem put_missing_table_witness :
    storeMetrics noFault dbBootstrapped snapshotNewAsset = (dbBootstrapped, false) :=
  put_fails_on_missing_table noFault dbBootstrapped snapshotNewAsset newTokenMetric
    (List.mem_cons_self newTokenMetric []) (by decide)

lemma aggFreshAt_spec (db : DbState) (b : ℕ) (h : aggFreshAt db b = true) :
    ∃ rows, db.aggTable = some rows ∧ ∀ r ∈ rows, r.blockNumber ≠ b := by
  unfold aggFreshAt at h
  cases hagg : db.aggTable with
  | none => rw [hagg] at h; exact absurd h (by simp)
  | some rows =>
    rw [hagg] at h
    refine ⟨rows, rfl, ?_⟩
    simpa [List.all_eq_true] using h

lemma tokenTableFreshAt_spec (db : DbState) (name : String) (b : ℕ)
    (h : tokenTableFreshAt db name b = true) :
    ∃ rows, lookupTable name db.tokenTables = some rows ∧ ∀ r ∈ rows, r.blockNumber ≠ b := by
  unfold tokenTableFreshAt at h
  cases hrt : lookupTable name db.tokenTables with
  | none => rw [hrt] at h; exact absurd h (by simp)
  | some rows =>
    rw [hrt] at h
    refine ⟨rows, rfl, ?_⟩
    simpa [List.all_eq_true] using h

/-- Claim C2: `storeMetrics` is idempotent keyed by block number. For any
snapshot whose block is fresh (the tables exist — with distinct names —
and hold no row for it yet), two consecutive fault-free `put` calls both
succeed, and afterwards every table holds exactly one row for the block,
whose fields are exactly the snapshot's values: the second write
overwrites via the `ON CONFLICT` upsert instead of duplicating. -/
theorem storeMetrics_idempotent :
    ∀ (db : DbState) (m : Snapshot),
    aggFreshAt db m.blockNumber = true →
    (∀ t ∈ m.tokenMetrics,
      tokenTableFreshAt db (tokenTableName t.symbol) m.blockNumber = true) →
    (m.tokenMetrics.map (fun t => tokenTableName t.symbol)).Nodup →
    ∃ db1 db2,
      storeMetrics noFault db m = (db1, true) ∧
      storeMetrics noFault db1 m = (db2, true) ∧
      aggRowsAt db2 m.blockNumber = [aggRowOf m] ∧
      ∀ t ∈ m.tokenMetrics,
        tokenRowsAt db2 (tokenTableName t.symbol) m.blockNumber =
          [tokenRowOf m.blockNumber m.timestamp t] := by
  intro db m hfa hft hnd
  obtain ⟨rows0, hagg, hfresh0⟩ := aggFreshAt_spec db m.blockNumber hfa
  obtain ⟨w1, hins1, hw1a, hw1t⟩ : ∃ w1 : DbState,
      insertAggRow noFault 0 (aggRowOf m) db = some w1 ∧
      w1.aggTable = some (upsertAggRows (aggRowOf m) rows0) ∧
      w1.tokenTables = db.tokenTables :=
    ⟨_, insertAggRow_nf 0 (aggRowOf m) db rows0 hagg, rfl, rfl⟩
  have hw1a2 : w1.aggTable = some (rows0 ++ [aggRowOf m]) := by
    rw [hw1a, upsertAggRows_fresh (aggRowOf m) rows0 hfresh0]
  have hsome1 : ∀ t ∈ m.tokenMetrics,
      (lookupTable (tokenTableName t.symbol) w1.tokenTables).isSome = true := by
    intro t ht
    obtain ⟨rows_t, hrt, _⟩ :=
      tokenTableFreshAt_spec db (tokenTableName t.symbol) m.blockNumber (hft t ht)
    rw [hw1t, hrt]
    rfl
  obtain ⟨db1, hst1, hagg1, hframe1, hwrite1⟩ :=
    storeTokenMetrics_nf_spec m.blockNumber m.timestamp m.tokenMetrics w1 1 hsome1 hnd
  have hrun1 : storeMetrics noFault db m = (db1, true) := by
    simp [storeMetrics, hins1, hst1]
  have hdb1a : db1.aggTable = some (rows0 ++ [aggRowOf m]) := by rw [hagg1, hw1a2]
  have hdb1t : ∀ t ∈ m.tokenMetrics, ∀ rows_t,
      lookupTable (tokenTableName t.symbol) db.tokenTables = some rows_t →
      lookupTable (tokenTableName t.symbol) db1.tokenTables =
        some (upsertTokenRows (tokenRowOf m.blockNumber m.timestamp t) rows_t) := by
    intro t ht rows_t hrt
    rw [hwrite1 t ht, hw1t, hrt]
    rfl
  obtain ⟨w2, hins2, hw2a, hw2t⟩ : ∃ w2 : DbState,
      insertAggRow noFault 0 (aggRowOf m) db1 = some w2 ∧
      w2.aggTable = some (upsertAggRows (aggRowOf m) (rows0 ++ [aggRowOf m])) ∧
      w2.tokenTables = db1.tokenTables :=
    ⟨_, insertAggRow_nf 0 (aggRowOf m) db1 (rows0 ++ [aggRowOf m]) hdb1a, rfl, rfl⟩
  have hw2a2 : w2.aggTable = some (rows0 ++ [aggRowOf m]) := by
    rw [hw2a, upsertAggRows_last (aggRowOf m) (aggRowOf m) rfl rows0 hfresh0,
      updateAggRow_self]
  have hsome2 : ∀ t ∈ m.tokenMetrics,
      (lookupTable (tokenTableName t.symbol) w2.tokenTables).isSome = true := by
    intro t ht
    obtain ⟨rows_t, hrt, _⟩ :=
      tokenTableFreshAt_spec db (tokenTableName t.symbol) m.blockNumber (hft t ht)
    rw [hw2t, hdb1t t ht rows_t hrt]
    rfl
  obtain ⟨db2, hst2, hagg2, hframe2, hwrite2⟩ :=
    storeTokenMetrics_nf_spec m.blockNumber m.timestamp m.tokenMetrics w2 1 hsome2 hnd
  have hrun2 : storeMetrics noFault db1 m = (db2, true) := by
    simp [storeMetrics, hins2, hst2]
  refine ⟨db1, db2, hrun1, hrun2, ?_, ?_⟩
  · have hdb2a : db2.aggTable = some (rows0 ++ [aggRowOf m]) := by rw [hagg2, hw2a2]
    simp only [aggRowsAt, hdb2a, Option.getD_some]
    exact filter_agg_single m.blockNumber (aggRowOf m) rfl rows0 hfresh0
  · intro t ht
    obtain ⟨rows_t, hrt, hfresh_t⟩ :=
      tokenTableFreshAt_spec db (tokenTableName t.symbol) m.blockNumber (hft t ht)
    have h1 : lookupTable (tokenTableName t.symbol) db1.tokenTables =
        some (rows_t ++ [tokenRowOf m.blockNumber m.timestamp t]) := by
      rw [hdb1t t ht rows_t hrt,
        upsertTokenRows_fresh (tokenRowOf m.blockNumber m.timestamp t) rows_t hfresh_t]
    have h2 : lookupTable (tokenTableName t.symbol) db2.tokenTables =
        some (rows_t ++ [tokenRowOf m.blockNumber m.timestamp t]) := by
      rw [hwrite2 t ht, hw2t, h1]
      show some (upsertTokenRows (tokenRowOf m.blockNumber m.timestamp t)
        (rows_t ++ [tokenRowOf m.blockNumber m.timestamp t])) = _
      rw [upsertTokenRows_last (tokenRowOf m.blockNumber m.timestamp t)
        (tokenRowOf m.blockNumber m.timestamp t) rfl rows_t hfresh_t, updateTokenRow_self]
    simp only [tokenRowsAt, h2, Option.getD_some]
    exact filter_token_single m.blockNumber (tokenRowOf m.blockNumber m.timestamp t) rfl
      rows_t hfresh_t

/-- A concrete WETH token metric for exercising the storage theorems. -/
def wethTokenMetric : TokenMetric :=
  { token := "Wrapped Ether", symbol := "WETH", priceInUSD := 2, liquidity := 4,
    liquidityUSD := 8, totalSupplied := 5, totalSuppliedUSD := 10, totalBorrowed := 1,
    totalBorrowedUSD := 2, utilizationRate := 20, reserves := 0, reserveFactor := 10,
    liquidationThreshold := 80, borrowEnabled := true, supplyCap := JsNum.inf,
    borrowCap := JsNum.fin 100, supplyAPY := 1, variableBorrowAPY := 2,
    stableBorrowAPY := 0 }

/-- A concrete one-token snapshot at block 7. -/
def snapshotWitness : Snapshot :=
  { network := "Base", chainId := 8453, blockNumber := 7, timestamp := 3,
    date := "1970-01-01T00:00:03.000Z", totalMarketSize := 10, totalAvailable := 8,
    totalBorrows := 2, averageUtilization := 20, tokenCount := 1,
    tokenMetrics := [wethTokenMetric] }

/-- A concrete bootstrapped database with an empty WETH table. -/
def dbWitness : DbState :=
  { aggTable := some [], tokenTables := [("aave_token_weth", [])] }

/-- Claim C2 witness: the idempotence theorem applied to the concrete
database and snapshot, with the freshness hypotheses discharged by
computation. -/
theorem storeMetrics_idempotent_witness :
    ∃ db1 db2,
      storeMetrics noFault dbWitness snapshotWitness = (db1, true) ∧
      storeMetrics noFault db1 snapshotWitness = (db2, true) ∧
      aggRowsAt db2 snapshotWitness.blockNumber = [aggRowOf snapshotWitness] ∧
      ∀ t ∈ snapshotWitness.tokenMetrics,
        tokenRowsAt db2 (tokenTableName t.symbol) snapshotWitness.blockNumber =
          [tokenRowOf snapshotWitness.blockNumber snapshotWitness.timestamp t] :=
  storeMetrics_idempotent dbWitness snapshotWitness (by decide) (by decide) (by decide)

/-! ## Poller model (startContinuousIndexing, lines 315-373) -/

/-- The poller's process state: the `lastProcessedBlock` cursor and the
database the store writes into. -/
structure PollState where
  cursor : ℕ
  db : DbState
deriving DecidableEq

/-- What one tick of the `setInterval` callback observes: the head block
from `getBlockNumber`, whether the fetch/format phase of
`indexBaseAaveMetrics` succeeded, the raw data and wall clock it saw,
and the fault oracle for the tick's storage statements. -/
structure TickInput where
  head : ℕ
  fetchOk : Bool
  raw : RawMarketData
  now : ℕ
  fault : ℕ → Bool

/-- One tick of the polling callback (lines 336-359): return unless the
observed head is strictly beyond the cursor; on a reader/transform error
the catch logs and leaves the state unchanged; otherwise the head
block's snapshot is built and stored, and the cursor is set to the head
only after the store committed — a store error is rethrown by
`indexBaseAaveMetrics`, lands in the same catch, and the cursor stays
(the database is the store's rollback result). -/
def pollTick (s : PollState) (i : TickInput) : PollState :=
  if i.head ≤ s.cursor then s
  else if i.fetchOk then
    if (storeMetrics i.fault s.db (transformLive i.raw i.head i.now)).2 then
      { cursor := i.head, db := (storeMetrics i.fault s.db (transformLive i.raw i.head i.now)).1 }
    else
      { cursor := s.cursor, db := (storeMetrics i.fault s.db (transformLive i.raw i.head i.now)).1 }
  else s

/-- The polling loop: the ticks processed in order; no tick's failure
stops the fold. -/
def runPoll (s : PollState) (ticks : List TickInput) : PollState :=
  ticks.foldl pollTick s

lemma pollTick_cursor_le (s : PollState) (i : TickInput) : s.cursor ≤ (pollTick s i).cursor := by
  unfold pollTick
  by_cases h1 : i.head ≤ s.cursor
  · rw [if_pos h1]
  · rw [if_neg h1]
    by_cases h2 : i.fetchOk = true
    · rw [if_pos h2]
      by_cases h3 : (storeMetrics i.fault s.db (transformLive i.raw i.head i.now)).2 = true
      · rw [if_pos h3]
        exact le_of_lt (not_le.mp h1)
      · rw [if_neg h3]
    · rw [if_neg h2]

lemma runPoll_cursor_le (s : PollState) : ∀ ticks, s.cursor ≤ (runPoll s ticks).cursor := by
  intro ticks
  induction ticks generalizing s with
  | nil => exact le_refl _
  | cons i rest ih => exact le_trans (pollTick_cursor_le s i) (ih (pollTick s i))

/-- Claim C8: the cursor never decreases; it moves (to the observed head)
only on a tick whose fetch succeeded and whose snapshot store committed,
with the committed database installed in the same step; a fetch failure
or a store failure leaves the cursor (and, for a store failure, the
database) unchanged; and the loop keeps folding the remaining ticks
after any tick, so a failed tick does not stop it. -/
theorem poller_cursor_invariants : ∀ (s : PollState) (i : TickInput) (ticks : List TickInput),
    s.cursor ≤ (pollTick s i).cursor ∧
    ((pollTick s i).cursor ≠ s.cursor →
      s.cursor < i.head ∧ i.fetchOk = true ∧
      (storeMetrics i.fault s.db (transformLive i.raw i.head i.now)).2 = true ∧
      pollTick s i =
        ⟨i.head, (storeMetrics i.fault s.db (transformLive i.raw i.head i.now)).1⟩) ∧
    (i.fetchOk = false → pollTick s i = s) ∧
    ((storeMetrics i.fault s.db (transformLive i.raw i.head i.now)).2 = false →
      (pollTick s i).cursor = s.cursor ∧ (pollTick s i).db = s.db) ∧
    runPoll s (i :: ticks) = runPoll (pollTick s i) ticks ∧
    s.cursor ≤ (runPoll s ticks).cursor := by
  intro s i ticks
  refine ⟨pollTick_cursor_le s i, ?_, ?_, ?_, rfl, runPoll_cursor_le s ticks⟩
  · intro hne
    unfold pollTick at hne ⊢
    by_cases h1 : i.head ≤ s.cursor
    · rw [if_pos h1] at hne
      exact absurd rfl hne
    · rw [if_neg h1] at hne ⊢
      by_cases h2 : i.fetchOk = true
      · rw [if_pos h2] at hne ⊢
        by_cases h3 : (storeMetrics i.fault s.db (transformLive i.raw i.head i.now)).2 = true
        · rw [if_pos h3]
          exact ⟨not_le.mp h1, h2, h3, rfl⟩
        · rw [if_neg h3] at hne
          exact absurd rfl hne
      · rw [if_neg h2] at hne
        exact absurd rfl hne
  · intro hf
    unfold pollTick
    by_cases h1 : i.head ≤ s.cursor
    · rw [if_pos h1]
    · rw [if_neg h1, if_neg (show ¬ i.fetchOk = true by simp [hf])]
  · intro hsf
    unfold pollTick
    by_cases h1 : i.head ≤ s.cursor
    · rw [if_pos h1]
      exact ⟨rfl, rfl⟩
    · rw [if_neg h1]
      by_cases h2 : i.fetchOk = true
      · rw [if_pos h2, if_neg (show ¬ _ = true by rw [hsf]; simp)]
        exact ⟨rfl,
          storeMetrics_fail_unchanged i.fault s.db (transformLive i.raw i.head i.now) hsf⟩
      · rw [if_neg h2]
        exact ⟨rfl, rfl⟩
